import Mathlib

/-!
Verification of the role/permission auditing utility (mdb-iam-util-node).

This file gives a shallow embedding of the core of the library:

* `AuthAdm.getUsername` / `AuthAdmX509.getUsername` — identity resolution
  (src/methods/AuthAdm.ts, src/methods/X509.ts);
* `AuthAdm.getUserRoles`  — role aggregation across databases
  (src/methods/AuthAdm.ts);
* `AuthAdm.getPrivilegesOfRole` — privilege expansion of one role
  (src/methods/AuthAdm.ts);
* `AuthAdm.verifyPermissions` — the verify entry point with its catch-all
  error absorption (src/methods/AuthAdm.ts);
* `MongoRoleManager.getPrivilegesOfRole` — the facade delegation
  (src/mongo-role-manager.ts).

The external MongoDB server is modelled by a `Server` record holding the
responses of the three admin commands the code issues (`listDatabases`,
`usersInfo`, `rolesInfo` with privileges) plus `connectionStatus`, each of
which may fail.  The driver client field (`this.client : MongoClient | null`)
is modelled by `ConnState.client : Bool` (`true` = non-null/open), and the
`connect` / `close` calls become explicit state transitions, so that the
session-lifetime discipline of the try/finally blocks is provable.

JavaScript `Set` insertion is modelled by `setAdd` / `setAddAll` (append if
absent, preserving first-insertion order), and JS truthiness of strings
(`""` is falsy) is modelled explicitly where the source relies on it.
-/

/-- Errors surfaced by the embedded operations.  `missingUsername` is the
`'Username must be provided or extracted from the connection string.'` throw,
`nullClient` is the TypeError raised by `this.client!` when no client was
created (no URI), `identityUnresolved` is the
`'Authenticated user cannot be determined.'` throw of the X.509 resolver, and
`other` wraps arbitrary failures coming back from the driver/server. -/
inductive Err where
  | missingUsername
  | nullClient
  | identityUnresolved
  | other (msg : String)
deriving DecidableEq, Repr

/-- State of the `client` field of the handler: `true` iff `this.client` is
non-null (a `MongoClient` object exists). -/
structure ConnState where
  client : Bool
deriving DecidableEq, Repr

/-- A privilege entry of a `rolesInfo` response: `privilege.actions`
(`actions` may be absent or not an array, modelled by `none`). -/
structure PrivilegeDoc where
  actions : Option (List String)
deriving DecidableEq, Repr

/-- A role entry of a `rolesInfo` response: `role.privileges`
(may be absent or not an array, modelled by `none`). -/
structure RoleDoc where
  privileges : Option (List PrivilegeDoc)
deriving DecidableEq, Repr

/-- A `rolesInfo` command response: the `roles` field
(may be absent or not an array, modelled by `none`). -/
structure RolesInfoResp where
  roles : Option (List RoleDoc)
deriving DecidableEq, Repr

/-- The external MongoDB server and connection options, as observed through
the commands the source issues.  A `usersInfo` response is
`Except.ok (some items)` when `userInfo.users` is non-empty and
`userInfo.users[0].roles` is truthy, where each item carries its `role` field
(`none` = null item or missing `role` field); `Except.ok none` when the user
is absent; `Except.error _` when the per-database command throws.  `hasUri`
is the truthiness of `opts.uri`, and `connectErr` is `some e` when
`MongoClient.connect()` rejects. -/
structure Server where
  hasUri : Bool
  connectErr : Option Err
  listDatabases : Except Err (List String)
  usersInfo : String → String → Except Err (Option (List (Option String)))
  rolesInfo : String → Except Err RolesInfoResp
  connectionStatus : Except Err (Option String)

/-- JS `a || b` on strings: `a` when truthy (non-empty), else `b`. -/
def jsOr (a b : String) : String :=
  if a = "" then b else a

/-- JS `Set.add`: append the element unless already present
(first-insertion order is preserved, as in a JS `Set`). -/
def setAdd (l : List String) (x : String) : List String :=
  if x ∈ l then l else l ++ [x]

/-- Insert every element of `xs` (in order) into the set `l`. -/
def setAddAll (l : List String) (xs : List String) : List String :=
  xs.foldl setAdd l

theorem mem_setAdd {l : List String} {x y : String} :
    y ∈ setAdd l x ↔ y ∈ l ∨ y = x := by
  unfold setAdd
  split
  · constructor
    · exact Or.inl
    · rintro (h | rfl)
      · exact h
      · assumption
  · simp [List.mem_append]

theorem nodup_setAdd {l : List String} {x : String} (h : l.Nodup) :
    (setAdd l x).Nodup := by
  unfold setAdd
  split
  · exact h
  · next hx => simp [List.nodup_append, h, hx]

theorem setAddAll_cons (l : List String) (x : String) (xs : List String) :
    setAddAll l (x :: xs) = setAddAll (setAdd l x) xs := rfl

theorem mem_setAddAll {y : String} (xs l : List String) :
    y ∈ setAddAll l xs ↔ y ∈ l ∨ y ∈ xs := by
  induction xs generalizing l with
  | nil => simp [setAddAll]
  | cons x xs ih =>
    rw [setAddAll_cons, ih, mem_setAdd, List.mem_cons]
    tauto

theorem nodup_setAddAll (xs l : List String) (h : l.Nodup) :
    (setAddAll l xs).Nodup := by
  induction xs generalizing l with
  | nil => exact h
  | cons x xs ih => exact setAddAll_cons l x xs ▸ ih _ (nodup_setAdd h)

theorem setAddAll_eq_append (xs : List String) (hx : xs.Nodup) :
    ∀ l, (∀ x ∈ xs, x ∉ l) → setAddAll l xs = l ++ xs := by
  induction xs with
  | nil => intro l _; simp [setAddAll]
  | cons x xs ih =>
    intro l hd
    have hx1 : x ∉ l := hd x (List.mem_cons_self _ _)
    have hadd : setAdd l x = l ++ [x] := by unfold setAdd; rw [if_neg hx1]
    rw [setAddAll_cons, hadd, ih (List.Nodup.of_cons hx)]
    · simp
    · intro y hy
      simp only [List.mem_append, List.mem_singleton]
      rintro (hyl | rfl)
      · exact hd y (List.mem_cons_of_mem _ hy) hyl
      · exact (List.nodup_cons.mp hx).1 hy

theorem setAddAll_nil_of_nodup {l : List String} (h : l.Nodup) :
    setAddAll [] l = l := by
  have := setAddAll_eq_append l h [] (by simp)
  simpa using this

/-- The result record of `verifyPermissions`:
`{ extra, missing, present }`. -/
structure DiffResult where
  extra : List String
  missing : List String
  present : List String
deriving DecidableEq, Repr

/-- The pure diff computed in the body of `AuthAdm.verifyPermissions`
(src/methods/AuthAdm.ts lines 120–134):
`requiredPermissionsSet = new Set(requiredPermissions)`;
`extra  = Array.from(new Set([...currentPermissions].filter(x => !requiredPermissionsSet.has(x))))`;
`missing = Array.from(new Set([...requiredPermissionsSet].filter(x => !currentPermissions.has(x))))`;
`present = Array.from(new Set([...requiredPermissionsSet].filter(x => currentPermissions.has(x))))`. -/
def computeDiff (required current : List String) : DiffResult :=
  { extra := setAddAll [] (current.filter (fun x => decide (x ∉ setAddAll [] required)))
    missing := setAddAll [] ((setAddAll [] required).filter (fun x => decide (x ∉ current)))
    present := setAddAll [] ((setAddAll [] required).filter (fun x => decide (x ∈ current))) }

theorem mem_extra {required current : List String} {x : String} :
    x ∈ (computeDiff required current).extra ↔ x ∈ current ∧ x ∉ required := by
  simp [computeDiff, mem_setAddAll, List.mem_filter]

theorem mem_missing {required current : List String} {x : String} :
    x ∈ (computeDiff required current).missing ↔ x ∈ required ∧ x ∉ current := by
  simp [computeDiff, mem_setAddAll, List.mem_filter]

theorem mem_present {required current : List String} {x : String} :
    x ∈ (computeDiff required current).present ↔ x ∈ required ∧ x ∈ current := by
  simp [computeDiff, mem_setAddAll, List.mem_filter]

theorem nodup_diff (required current : List String) :
    (computeDiff required current).extra.Nodup ∧
    (computeDiff required current).missing.Nodup ∧
    (computeDiff required current).present.Nodup :=
  ⟨nodup_setAddAll _ _ List.nodup_nil, nodup_setAddAll _ _ List.nodup_nil,
   nodup_setAddAll _ _ List.nodup_nil⟩

/-- The `connect` method of `AuthAdm` (src/methods/AuthAdm.ts lines 16–21):
a no-op when a client already exists or no URI is configured; otherwise a
client object is created (the field becomes non-null *before* the awaited
`connect()` call, so the field stays non-null even when connecting fails). -/
def connectStep (srv : Server) (st : ConnState) : Except Err Unit × ConnState :=
  if st.client then (Except.ok (), st)
  else if srv.hasUri then
    match srv.connectErr with
    | none => (Except.ok (), ConnState.mk true)
    | some e => (Except.error e, ConnState.mk true)
  else (Except.ok (), st)

/-- The base `AuthAdm.getUsername` (src/methods/AuthAdm.ts lines 30–32):
`username || this.username || ""` — pure, never touches the server. -/
def getUsernameBase (explicit cached : Option String) : String :=
  jsOr (explicit.getD "") (jsOr (cached.getD "") "")

/-- The roles filter+map of `getUserRoles` (src/methods/AuthAdm.ts lines
62–66): `rolesInfo.admin.filter(item => item && item.role).map(item => item.role)`
— JS truthiness drops null items, items without a `role` field, and items
whose role name is the empty string. -/
def truthyRoleNames (items : List (Option String)) : List String :=
  (items.filter (fun it =>
    match it with
    | some s => decide (s ≠ "")
    | none => false)).filterMap id

/-- The per-database scan of `getUserRoles` (src/methods/AuthAdm.ts lines
47–57): for each listed database, issue `usersInfo`; record the roles array
when the user exists with a truthy roles field; silently skip databases
where the command throws or the user is absent. -/
def discoverRolesInfo (srv : Server) (user : String) (dbs : List String) :
    List (String × List (Option String)) :=
  dbs.filterMap (fun db =>
    match srv.usersInfo db user with
    | Except.ok (some items) => some (db, items)
    | Except.ok none => none
    | Except.error _ => none)

/-- The admin-database selection of `getUserRoles` (src/methods/AuthAdm.ts
lines 61–70): only `rolesInfo.admin` is consulted; its role names are
deduplicated via a `Set`; any other database's assignments are discarded;
no admin entry gives `[]`. -/
def extractAdminRoles (info : List (String × List (Option String))) : List String :=
  match List.lookup "admin" info with
  | some items => setAddAll [] (truthyRoleNames items)
  | none => []

/-- The body of `getUserRoles` after username resolution (src/methods/AuthAdm.ts
lines 38–71): throw when the username is empty (before any connection);
otherwise connect, list databases and scan them inside `try`, with
`finally { disconnect() }` closing the client on success and failure alike. -/
def getUserRolesCore (srv : Server) (targetUsername : String) (st : ConnState) :
    Except Err (List String) × ConnState :=
  if targetUsername = "" then (Except.error Err.missingUsername, st)
  else
    match connectStep srv st with
    | (Except.error e, _) => (Except.error e, ConnState.mk false)
    | (Except.ok _, st1) =>
      if st1.client = false then (Except.error Err.nullClient, ConnState.mk false)
      else
        match srv.listDatabases with
        | Except.error e => (Except.error e, ConnState.mk false)
        | Except.ok dbs =>
          (Except.ok (extractAdminRoles (discoverRolesInfo srv targetUsername dbs)),
           ConnState.mk false)

/-- `AuthAdm.getUserRoles` (src/methods/AuthAdm.ts lines 34–71): resolve the
username via the base `getUsername`, then run the aggregation core. -/
def AuthAdm.getUserRoles (srv : Server) (explicit cached : Option String)
    (st : ConnState) : Except Err (List String) × ConnState :=
  getUserRolesCore srv (getUsernameBase explicit cached) st

/-- Flatten a `rolesInfo` response exactly as the nested `forEach` loops do
(src/methods/AuthAdm.ts lines 86–96): every action of every privilege of
every returned role entry, in order. -/
def respActions (resp : RolesInfoResp) : List String :=
  (resp.roles.getD []).flatMap fun r =>
    (r.privileges.getD []).flatMap fun p => p.actions.getD []

/-- `AuthAdm.getPrivilegesOfRole` (src/methods/AuthAdm.ts lines 74–104):
connect and query `rolesInfo` inside `try`; *any* failure is caught (and
only logged), the `finally` closes the client, and the accumulated
privilege set (empty on failure) is returned — the operation never throws. -/
def AuthAdm.getPrivilegesOfRole (srv : Server) (roleName : String)
    (st : ConnState) : List String × ConnState :=
  match connectStep srv st with
  | (Except.error _, _) => ([], ConnState.mk false)
  | (Except.ok _, st1) =>
    if st1.client = false then ([], ConnState.mk false)
    else
      match srv.rolesInfo roleName with
      | Except.error _ => ([], ConnState.mk false)
      | Except.ok resp => (setAddAll [] (respActions resp), ConnState.mk false)

/-- The per-role loop of `verifyPermissions` (src/methods/AuthAdm.ts lines
115–118): each role is expanded with `getPrivilegesOfRole` and its actions
are added to the `currentPermissions` set, threading the client state. -/
def expandAll (srv : Server) (roles : List String) (acc : List String)
    (st : ConnState) : List String × ConnState :=
  match roles with
  | [] => (acc, st)
  | r :: rest =>
    expandAll srv rest (setAddAll acc (AuthAdm.getPrivilegesOfRole srv r st).1)
      (AuthAdm.getPrivilegesOfRole srv r st).2

/-- The `try` body of `AuthAdm.verifyPermissions` (src/methods/AuthAdm.ts
lines 110–135): with no caller-supplied role list (`!roleNames`), fall back
to `getUserRoles()` (whose failure propagates out of the body); expand every
role and diff against the required list.  An explicitly supplied list —
including `[]`, which is truthy in JS — suppresses the fallback. -/
def AuthAdm.verifyPermissionsTry (srv : Server) (cached : Option String)
    (required : List String) (roleNames : Option (List String))
    (st : ConnState) : Except Err DiffResult × ConnState :=
  match roleNames with
  | none =>
    match AuthAdm.getUserRoles srv none cached st with
    | (Except.error e, st1) => (Except.error e, st1)
    | (Except.ok rs, st1) =>
      (Except.ok (computeDiff required (expandAll srv rs [] st1).1),
       (expandAll srv rs [] st1).2)
  | some rs =>
    (Except.ok (computeDiff required (expandAll srv rs [] st).1),
     (expandAll srv rs [] st).2)

/-- The `catch` of `AuthAdm.verifyPermissions` (src/methods/AuthAdm.ts lines
137–140): any error escaping the body is logged and replaced by the empty
triple. -/
def catchDiff : Except Err DiffResult → DiffResult
  | Except.ok d => d
  | Except.error _ => { extra := [], missing := [], present := [] }

/-- `AuthAdm.verifyPermissions` (src/methods/AuthAdm.ts lines 106–141):
the `try` body wrapped in the catch-all. -/
def AuthAdm.verifyPermissions (srv : Server) (cached : Option String)
    (required : List String) (roleNames : Option (List String))
    (st : ConnState) : DiffResult × ConnState :=
  (catchDiff (AuthAdm.verifyPermissionsTry srv cached required roleNames st).1,
   (AuthAdm.verifyPermissionsTry srv cached required roleNames st).2)

/-- `AuthAdmX509.getUsername` (src/methods/X509.ts lines 9–30): return a
truthy explicit username verbatim; otherwise connect (no `finally`!), issue
`connectionStatus`, return the first authenticated user when truthy, and
otherwise throw `'Authenticated user cannot be determined.'`; the `catch`
only logs and rethrows.  The cached `this.username` field is never read. -/
def AuthAdmX509.getUsername (srv : Server) (explicit : Option String)
    (st : ConnState) : Except Err String × ConnState :=
  if (explicit.getD "") ≠ "" then (Except.ok (explicit.getD ""), st)
  else
    match connectStep srv st with
    | (Except.error e, st1) => (Except.error e, st1)
    | (Except.ok _, st1) =>
      if st1.client = false then (Except.error Err.nullClient, st1)
      else
        match srv.connectionStatus with
        | Except.error e => (Except.error e, st1)
        | Except.ok u =>
          if (u.getD "") ≠ "" then (Except.ok (u.getD ""), st1)
          else (Except.error Err.identityUnresolved, st1)

/-- `getUserRoles` as inherited by `AuthAdmX509`: identical body, but the
username-resolution step dispatches to the X.509 override, whose failure
propagates *before* the aggregation `try`/`finally` is entered. -/
def AuthAdmX509.getUserRoles (srv : Server) (explicit : Option String)
    (st : ConnState) : Except Err (List String) × ConnState :=
  match AuthAdmX509.getUsername srv explicit st with
  | (Except.error e, st1) => (Except.error e, st1)
  | (Except.ok u, st1) => getUserRolesCore srv u st1

/-- `MongoRoleManager.getPrivilegesOfRole` (src/mongo-role-manager.ts lines
30–33): the facade delegates to `srv.getUserRoles(roleName)` — the role name
is passed as a *username* to the role aggregator, not to the privilege
expander. -/
def MongoRoleManager.getPrivilegesOfRole (srv : Server) (cached : Option String)
    (roleName : String) (st : ConnState) : Except Err (List String) × ConnState :=
  AuthAdm.getUserRoles srv (some roleName) cached st

/-- A `rolesInfo` response granting exactly the given action list through a
single role entry with a single privilege. -/
def respOf (acts : List String) : RolesInfoResp :=
  { roles := some [{ privileges := some [{ actions := some acts }] }] }

/-- A healthy but empty server: connecting succeeds, no databases, no users,
no role information, no authenticated principal. -/
def srvEmpty : Server :=
  { hasUri := true
    connectErr := none
    listDatabases := Except.ok []
    usersInfo := fun _ _ => Except.ok none
    rolesInfo := fun _ => Except.ok { roles := none }
    connectionStatus := Except.ok none }

/-- A server where listing databases and querying role information both
fail. -/
def srvListFail : Server :=
  { srvEmpty with
    listDatabases := Except.error (Err.other "listDatabases failed")
    rolesInfo := fun _ => Except.error (Err.other "rolesInfo failed") }

/-- A server knowing the built-in role `readWrite` (granting `find` and
`insert`) but having no user account named `readWrite` anywhere. -/
def srvC6 : Server :=
  { srvEmpty with
    listDatabases := Except.ok ["admin"]
    rolesInfo := fun r =>
      if r = "readWrite" then Except.ok (respOf ["find", "insert"])
      else Except.ok { roles := none } }

/-- A server whose admin database records, for any user, a single role
assignment whose `role` field is the empty string. -/
def srvAdminEmptyName : Server :=
  { srvEmpty with
    listDatabases := Except.ok ["admin"]
    usersInfo := fun db _ =>
      if db = "admin" then Except.ok (some [some ""]) else Except.ok none }

/-- A server where expanding the role `good` yields `find` and expanding any
other role fails. -/
def srvC4 : Server :=
  { srvEmpty with
    rolesInfo := fun r =>
      if r = "good" then Except.ok (respOf ["find"])
      else Except.error (Err.other "bad role") }

/-- A server where user `alice` has `readWrite` (listed twice, plus a
malformed null item) on the admin database and `dbOwner` on the `sales`
database. -/
def srvScope : Server :=
  { srvEmpty with
    listDatabases := Except.ok ["admin", "sales"]
    usersInfo := fun db u =>
      if u = "alice" then
        if db = "admin" then Except.ok (some [some "readWrite", some "readWrite", none])
        else if db = "sales" then Except.ok (some [some "dbOwner"])
        else Except.ok none
      else Except.ok none }

/-- C1: for every required-permission list and every effective permission
set (the union of the expanded roles, which is exactly what
`verifyPermissions` passes to the diff), the result satisfies
`extra = effective \ required`, `missing = required \ effective`,
`present = required ∩ effective`, each deduplicated, and an empty required
list gives `present = missing = ∅` and `extra = effective` (as sets). -/
theorem verifyPermissions_diff_spec (required current : List String) :
    (∀ srv cached st rs,
      (AuthAdm.verifyPermissions srv cached required (some rs) st).1 =
        computeDiff required (expandAll srv rs [] st).1) ∧
    (∀ x, x ∈ (computeDiff required current).extra ↔ x ∈ current ∧ x ∉ required) ∧
    (∀ x, x ∈ (computeDiff required current).missing ↔ x ∈ required ∧ x ∉ current) ∧
    (∀ x, x ∈ (computeDiff required current).present ↔ x ∈ required ∧ x ∈ current) ∧
    (computeDiff required current).extra.Nodup ∧
    (computeDiff required current).missing.Nodup ∧
    (computeDiff required current).present.Nodup ∧
    (computeDiff [] current).present = [] ∧
    (computeDiff [] current).missing = [] ∧
    (∀ x, x ∈ (computeDiff [] current).extra ↔ x ∈ current) := by
  refine ⟨fun srv cached st rs => rfl, fun x => mem_extra, fun x => mem_missing,
    fun x => mem_present, (nodup_diff _ _).1, (nodup_diff _ _).2.1, (nodup_diff _ _).2.2,
    rfl, rfl, fun x => ?_⟩
  rw [mem_extra]
  simp

/-- C2: the DiffResult computed by `verifyPermissions` satisfies, as sets,
`present ∪ missing = required`, `present ∩ missing = ∅`, and
`extra ∩ required = ∅`. -/
theorem verifyPermissions_diff_partition (required current : List String) :
    (∀ srv cached st rs,
      (AuthAdm.verifyPermissions srv cached required (some rs) st).1 =
        computeDiff required (expandAll srv rs [] st).1) ∧
    (∀ x, (x ∈ (computeDiff required current).present ∨
           x ∈ (computeDiff required current).missing) ↔ x ∈ required) ∧
    (∀ x, ¬(x ∈ (computeDiff required current).present ∧
            x ∈ (computeDiff required current).missing)) ∧
    (∀ x, ¬(x ∈ (computeDiff required current).extra ∧ x ∈ required)) := by
  refine ⟨fun srv cached st rs => rfl, fun x => ?_, fun x => ?_, fun x => ?_⟩
  · rw [mem_present, mem_missing]; tauto
  · rw [mem_present, mem_missing]; tauto
  · rw [mem_extra]; tauto

/-- C10: with an explicitly supplied empty role list, `verifyPermissions`
does not fall back to the subject's aggregated roles (the server is
arbitrary and untouched: the state is returned unchanged); the effective
set is empty, so `extra = present = ∅` and `missing` is the deduplicated
required list. -/
theorem verifyPermissions_empty_roles (srv : Server) (cached : Option String)
    (required : List String) (st : ConnState) :
    AuthAdm.verifyPermissions srv cached required (some []) st =
      ({ extra := [], missing := setAddAll [] required, present := [] }, st) ∧
    (setAddAll [] required).Nodup ∧
    (∀ x, x ∈ setAddAll [] required ↔ x ∈ required) := by
  have hreq : (setAddAll [] required).Nodup := nodup_setAddAll _ _ List.nodup_nil
  have hfil1 : (setAddAll [] required).filter
      (fun x => decide (x ∉ ([] : List String))) = setAddAll [] required :=
    List.filter_eq_self.mpr (by intro a _; simp)
  have hfil2 : (setAddAll [] required).filter
      (fun x => decide (x ∈ ([] : List String))) = [] := by
    rw [List.filter_eq_nil_iff]
    intro a _
    simp
  have hdiff : computeDiff required [] =
      { extra := [], missing := setAddAll [] required, present := [] } := by
    unfold computeDiff
    rw [hfil1, hfil2, setAddAll_nil_of_nodup hreq]
    exact rfl
  have hrun : AuthAdm.verifyPermissions srv cached required (some []) st =
      (computeDiff required [], st) := rfl
  refine ⟨?_, hreq, fun x => ?_⟩
  · rw [hrun, hdiff]
  · rw [mem_setAddAll]
    simp

/-- C7: when the resolved subject is empty, `getUserRoles` fails with the
missing-subject error before any server contact: the result does not depend
on the server, and the connection state is returned unchanged (no session
opened, no command issued). -/
theorem getUserRoles_missing_subject (srv : Server) (explicit cached : Option String)
    (st : ConnState) (h : getUsernameBase explicit cached = "") :
    AuthAdm.getUserRoles srv explicit cached st =
      (Except.error Err.missingUsername, st) := by
  unfold AuthAdm.getUserRoles getUserRolesCore
  rw [h]
  simp

/-- C7 witness: with no explicit username and no cached one, `getUserRoles`
on a healthy server fails with the missing-subject error, state unchanged. -/
theorem getUserRoles_missing_subject_witness :
    AuthAdm.getUserRoles srvEmpty none none (ConnState.mk false) =
      (Except.error Err.missingUsername, ConnState.mk false) :=
  getUserRoles_missing_subject srvEmpty none none (ConnState.mk false) rfl

/-- C8 counterexample: the base resolver (`AuthAdm.getUsername`,
`username || this.username || ""`) with no explicit username and no cached
subject returns the *value* `""` — it does not fail with any error, and it
never consults the server at all (manifest from its type: it takes no
server argument).  The healthy empty server of this scenario reports no
authenticated principal, so the claim's hypotheses are met, yet the
operation completes with a value instead of aborting with
`identityUnresolved`. -/
theorem base_getUsername_returns_empty :
    getUsernameBase none none = "" ∧
    srvEmpty.connectionStatus = Except.ok none := ⟨rfl, rfl⟩

/-- C8 amended: with no explicit username supplied and a server that reports
no authenticated principal, the X.509 `getUsername` override fails with
`identityUnresolved`, propagating the error instead of returning a value
(the cached subject is never consulted by this override); the base
`getUsername` used by the SCRAM handler instead returns the empty string
without failing. -/
theorem x509_identity_unresolved (srv : Server) (st : ConnState)
    (h1 : srv.connectionStatus = Except.ok none)
    (h2 : st.client = true ∨ (srv.hasUri = true ∧ srv.connectErr = none)) :
    (AuthAdmX509.getUsername srv none st).1 = Except.error Err.identityUnresolved ∧
    getUsernameBase none none = "" := by
  refine ⟨?_, rfl⟩
  unfold AuthAdmX509.getUsername connectStep
  rcases h2 with hc | ⟨hu, he⟩
  · simp [hc, h1]
  · by_cases hcl : st.client
    · simp [hcl, h1]
    · simp [hcl, hu, he, h1]

/-- C8 amended witness: on the healthy empty server (which reports no
authenticated principal), the X.509 `getUsername` with no explicit username
fails with `identityUnresolved`. -/
theorem x509_identity_unresolved_witness :
    (AuthAdmX509.getUsername srvEmpty none (ConnState.mk false)).1 =
      Except.error Err.identityUnresolved :=
  (x509_identity_unresolved srvEmpty (ConnState.mk false) rfl (Or.inr ⟨rfl, rfl⟩)).1

/-- C3 counterexample: on a server whose admin database records for the
subject exactly one assignment whose `role` field is the empty string,
`getUserRoles` succeeds with `[]`, although the deduplicated role names of
the admin assignments form `[""]` — the JS truthiness filter
(`item && item.role`) silently drops the empty role name, so the result is
not "exactly the deduplicated role names of the assignments recorded on the
admin database". -/
theorem getUserRoles_drops_empty_role_name :
    (AuthAdm.getUserRoles srvAdminEmptyName (some "alice") none (ConnState.mk false)).1 =
      Except.ok [] ∧
    discoverRolesInfo srvAdminEmptyName "alice" ["admin"] = [("admin", [some ""])] ∧
    ¬("" ∈ ([] : List String)) := by
  refine ⟨rfl, rfl, by simp⟩

theorem mem_truthyRoleNames {items : List (Option String)} {x : String} :
    x ∈ truthyRoleNames items ↔ some x ∈ items ∧ x ≠ "" := by
  unfold truthyRoleNames
  rw [List.mem_filterMap]
  constructor
  · rintro ⟨a, ha, hax⟩
    rw [List.mem_filter] at ha
    cases a with
    | none => simp at hax
    | some s =>
      have hsx : s = x := by simpa using hax
      subst hsx
      refine ⟨ha.1, ?_⟩
      simpa using ha.2
  · rintro ⟨hx, hne⟩
    refine ⟨some x, ?_, rfl⟩
    rw [List.mem_filter]
    exact ⟨hx, by simpa using hne⟩

/-- C3 amended: for a non-empty resolved subject and a successful scan,
`getUserRoles` returns exactly the deduplicated *truthy* role names of the
assignments recorded on the admin database (null items, items without a
role field, and empty role names are dropped); assignments on any other
database are discarded, and with no admin entry the result is empty (the
lookup yields `none` and the membership condition is unsatisfiable). -/
theorem getUserRoles_admin_scoping (srv : Server) (explicit cached : Option String)
    (st : ConnState) (dbs : List String)
    (h1 : getUsernameBase explicit cached ≠ "")
    (h2 : st.client = true ∨ (srv.hasUri = true ∧ srv.connectErr = none))
    (h3 : srv.listDatabases = Except.ok dbs) :
    AuthAdm.getUserRoles srv explicit cached st =
      (Except.ok (extractAdminRoles
         (discoverRolesInfo srv (getUsernameBase explicit cached) dbs)),
       ConnState.mk false) ∧
    (extractAdminRoles
       (discoverRolesInfo srv (getUsernameBase explicit cached) dbs)).Nodup ∧
    (∀ x, x ∈ extractAdminRoles
        (discoverRolesInfo srv (getUsernameBase explicit cached) dbs) ↔
      ∃ items, List.lookup "admin"
          (discoverRolesInfo srv (getUsernameBase explicit cached) dbs) = some items ∧
        some x ∈ items ∧ x ≠ "") := by
  have hconn : ∃ st1, connectStep srv st = (Except.ok (), st1) ∧ st1.client = true := by
    rcases h2 with hc | ⟨hu, he⟩
    · exact ⟨st, by simp [connectStep, hc], hc⟩
    · by_cases hcl : st.client
      · exact ⟨st, by simp [connectStep, hcl], hcl⟩
      · exact ⟨ConnState.mk true, by simp [connectStep, hcl, hu, he], rfl⟩
  obtain ⟨st1, hcs, hc1⟩ := hconn
  have hnd : ∀ info, (extractAdminRoles info).Nodup := by
    intro info
    unfold extractAdminRoles
    split
    · exact nodup_setAddAll _ _ List.nodup_nil
    · simp
  have hmem : ∀ info (x : String), x ∈ extractAdminRoles info ↔
      ∃ items, List.lookup "admin" info = some items ∧ some x ∈ items ∧ x ≠ "" := by
    intro info x
    unfold extractAdminRoles
    cases hl : List.lookup "admin" info with
    | none => simp
    | some items =>
      rw [mem_setAddAll, mem_truthyRoleNames]
      simp
  refine ⟨?_, hnd _, fun x => hmem _ x⟩
  unfold AuthAdm.getUserRoles getUserRolesCore
  rw [if_neg h1, hcs]
  simp [hc1, h3]

/-- C3 amended witness: user `alice` has `readWrite` (twice, plus a null
item) on the admin database and `dbOwner` on `sales`; `getUserRoles`
returns the admin extraction. -/
theorem getUserRoles_admin_scoping_witness :
    AuthAdm.getUserRoles srvScope (some "alice") none (ConnState.mk false) =
      (Except.ok (extractAdminRoles
         (discoverRolesInfo srvScope (getUsernameBase (some "alice") none)
           ["admin", "sales"])),
       ConnState.mk false) :=
  (getUserRoles_admin_scoping srvScope (some "alice") none (ConnState.mk false)
    ["admin", "sales"] (by decide) (Or.inr ⟨rfl, rfl⟩) rfl).1

/-- C4 counterexample: with caller-supplied roles `["good", "bad"]`,
expanding `bad` raises an error inside the role-info query, yet
`verifyPermissions` returns `{extra := [], missing := [], present := ["find"]}`
— the partial result contributed by `good` — and not the empty DiffResult
that the claim prescribes for any error raised during role expansion. -/
theorem verifyPermissions_expansion_error_partial :
    srvC4.rolesInfo "bad" = Except.error (Err.other "bad role") ∧
    (AuthAdm.verifyPermissions srvC4 none ["find"] (some ["good", "bad"])
        (ConnState.mk false)).1 =
      { extra := [], missing := [], present := ["find"] } ∧
    ({ extra := [], missing := [], present := ["find"] } : DiffResult) ≠
      { extra := [], missing := [], present := [] } := by
  refine ⟨rfl, rfl, by decide⟩

/-- C4 amended: `verifyPermissions` never throws; an error raised during
role *listing* (or anything else escaping the orchestration body) is caught
and converted into the empty DiffResult, while with caller-supplied roles
the body always completes normally (role-expansion failures are absorbed
inside the expansion as empty contributions and never reach the catch). -/
theorem verifyPermissions_error_policy (srv : Server) (cached : Option String)
    (required : List String) (st : ConnState) (e : Err)
    (h : (AuthAdm.getUserRoles srv none cached st).1 = Except.error e) :
    (AuthAdm.verifyPermissions srv cached required none st).1 =
      { extra := [], missing := [], present := [] } ∧
    ∀ rs st2, ∃ d,
      (AuthAdm.verifyPermissionsTry srv cached required (some rs) st2).1 =
        Except.ok d := by
  have hTry : (AuthAdm.verifyPermissionsTry srv cached required none st).1 =
      Except.error e := by
    unfold AuthAdm.verifyPermissionsTry
    rcases hG : AuthAdm.getUserRoles srv none cached st with ⟨r, st1⟩
    rw [hG] at h
    simp only at h
    subst h
    simp
  constructor
  · unfold AuthAdm.verifyPermissions
    rw [hTry]
    exact rfl
  · intro rs st2
    exact ⟨_, rfl⟩

/-- C4 amended witness: on a server where listing databases fails, the
fallback role listing errors and `verifyPermissions` degrades to the empty
triple instead of propagating. -/
theorem verifyPermissions_error_policy_witness :
    (AuthAdm.verifyPermissions srvListFail (some "alice") ["find"] none
        (ConnState.mk false)).1 =
      { extra := [], missing := [], present := [] } :=
  (verifyPermissions_error_policy srvListFail (some "alice") ["find"]
    (ConnState.mk false) (Err.other "listDatabases failed") rfl).1

/-- C5: the expander itself (`AuthAdm.getPrivilegesOfRole`) absorbs a failed
role-info query into the empty set without throwing, but the public facade
`MongoRoleManager.getPrivilegesOfRole` — which delegates to
`getUserRoles(roleName)` — propagates the underlying failure to the caller
instead of returning the empty set. -/
theorem facade_expandRole_throws :
    AuthAdm.getPrivilegesOfRole srvListFail "readWrite" (ConnState.mk false) =
      ([], ConnState.mk false) ∧
    (MongoRoleManager.getPrivilegesOfRole srvListFail none "readWrite"
        (ConnState.mk false)).1 =
      Except.error (Err.other "listDatabases failed") := by
  refine ⟨rfl, rfl⟩

/-- C6: on a server that knows the role `readWrite` (granting `find` and
`insert`) but has no *user* named `readWrite`, the facade's
`getPrivilegesOfRole` returns `[]` (it ran the role aggregator on the role
name), while the privilege expander returns `["find", "insert"]` — the
facade does not delegate role expansion to the expander. -/
theorem facade_expandRole_mismatch :
    (MongoRoleManager.getPrivilegesOfRole srvC6 none "readWrite"
        (ConnState.mk false)).1 = Except.ok [] ∧
    (AuthAdm.getPrivilegesOfRole srvC6 "readWrite" (ConnState.mk false)).1 =
      ["find", "insert"] ∧
    (Except.ok [] : Except Err (List String)) ≠ Except.ok ["find", "insert"] := by
  refine ⟨rfl, rfl, by simp⟩

/-- C9: failing input — on the X.509 handler with no explicit username and a
server that reports no authenticated principal, `getUserRoles` throws
`identityUnresolved` while the client field is still non-null: the identity
resolution step opened the session (with no `finally` to close it) and the
error propagates before the aggregation's `try`/`finally` is entered, so
this exit path leaves the session open. -/
theorem x509_getUserRoles_leaks_session :
    (AuthAdmX509.getUserRoles srvEmpty none (ConnState.mk false)).1 =
      Except.error Err.identityUnresolved ∧
    (AuthAdmX509.getUserRoles srvEmpty none (ConnState.mk false)).2.client = true := by
  refine ⟨rfl, rfl⟩
